import Mathlib

/-!
Verification of the document CRUD module of the markdown-poc repository.

The repository contains two copies of the document CRUD wrapper functions:
* `src/home/project/src/lib/documents.ts` (embedded below in namespace `Docs`);
* a second copy appended inside `src/src/lib/auth.ts` (embedded in namespace
  `DocsV2`), which differs in a few places (no alias-to-file-name fallback in
  reads, read errors swallowed instead of propagated, storage path built from
  the caller-supplied file name).

The remote backend (relational table `markdown_documents` plus the
`markdown-files` object-storage bucket) is modelled as an explicit state
(`Backend`).  Every backend call a function makes can fail; a `Faults` record
holds one flag per call site of an operation invocation, so that every error
path of the TypeScript code is reachable in the model.  Each operation returns
the result (`Except Err _`), the new backend state, and the trace of backend
calls it issued, in order, so that ordering claims can be stated about it.
-/

/-- A row of the `markdown_documents` table.  `alias` is nullable (`Option`);
timestamps are modelled as naturals. -/
structure Row where
  id : String
  «alias» : Option String
  file_name : String
  user_id : String
  is_public : Bool
  storage_path : String
  created_at : Nat
  updated_at : Nat
  deriving DecidableEq

/-- The backend state: the table rows, the storage bucket (path ↦ content),
the next value of the uuid generator, and the current clock used for
`now()` timestamps. -/
structure Backend where
  rows : List Row
  blobs : List (String × String)
  nextId : Nat
  now : Nat
  deriving DecidableEq

/-- One backend call (also used to record the trace of calls an operation
issues, in order). -/
inductive Event where
  | allocId (id : String)
  | selectAll
  | selectRow (id : String)
  | insertRow (id : String)
  | uploadBlob (path : String)
  | updateBlob (path : String)
  | downloadBlob (path : String)
  | removeBlob (path : String)
  | updateRow (id : String)
  | deleteRow (id : String)
  deriving DecidableEq

/-- An error thrown by an operation: either a failed backend call (carrying
which call failed) or the explicit `new Error('Document not found')`. -/
inductive Err where
  | backend (call : Event)
  | docNotFound
  deriving DecidableEq

/-- Per-call-site failure flags for one operation invocation, plus the set of
storage paths whose download fails.  All default to "no failure". -/
structure Faults where
  rpcFail : Bool := false
  selectAllFail : Bool := false
  selectFail : Bool := false
  insertFail : Bool := false
  uploadFail : Bool := false
  compDeleteFail : Bool := false
  blobUpdateFail : Bool := false
  rowUpdateFail : Bool := false
  removeFail : Bool := false
  rowDeleteFail : Bool := false
  downloadFails : List String := []
  deriving DecidableEq

/-- The fault-free schedule. -/
def noFaults : Faults := {}

/-- The record shape the TypeScript functions return to the UI. -/
structure Doc where
  id : String
  title : Option String
  fileName : String
  content : String
  userId : String
  createdAt : Nat
  updatedAt : Nat
  isPublic : Bool
  deriving DecidableEq

/-- `.from('markdown_documents').select(...).eq('id', id).single()`:
returns the row when the call does not fail and exactly one row matches,
otherwise `none` (supabase `single()` reports an error for zero or several
rows, with `data` null). -/
def selectSingle (rows : List Row) (fail : Bool) (id : String) : Option Row :=
  if fail then none
  else match rows.filter (fun r => r.id == id) with
    | [r] => some r
    | _ => none

/-- `.delete().eq('id', id)` on the table. -/
def delRows (rows : List Row) (id : String) : List Row :=
  rows.filter (fun r => r.id != id)

/-- `.update(dbUpdates).eq('id', id)` on the table. -/
def updRows (rows : List Row) (id : String) (g : Row → Row) : List Row :=
  rows.map (fun r => if r.id == id then g r else r)

/-- Storage lookup: content stored under `path`, if any. -/
def lookupBlob (blobs : List (String × String)) (path : String) : Option String :=
  (blobs.find? (fun b => b.1 == path)).map (fun b => b.2)

/-- Storage write (upload/overwrite) at `path`. -/
def setBlob (blobs : List (String × String)) (path content : String) :
    List (String × String) :=
  (path, content) :: blobs.filter (fun b => b.1 != path)

/-- Storage `.remove([path])`. -/
def remBlob (blobs : List (String × String)) (path : String) :
    List (String × String) :=
  blobs.filter (fun b => b.1 != path)

/-- `getFileContent`: storage download of `path`; fails when the schedule says
so or when no object is stored at `path`. -/
def download (s : Backend) (f : Faults) (path : String) : Option String :=
  if f.downloadFails.contains path then none else lookupBlob s.blobs path

/-- The uuid the `generate_uuid` rpc returns in state `s`. -/
def genId (s : Backend) : String :=
  "uuid-" ++ toString s.nextId

/-- The backend sorts `select('*').order('created_at', { ascending: false })`
results by creation timestamp, newest first. -/
def rowsByCreatedDesc (rows : List Row) : List Row :=
  List.insertionSort (fun a b => b.created_at ≤ a.created_at) rows

/-- The input of `createDocument` (`Omit<MarkdownFile,'id'|'createdAt'|'updatedAt'>`).
`title` is a plain string; the empty string is falsy in JavaScript. -/
structure DocInput where
  title : String
  fileName : String
  content : String
  userId : String
  isPublic : Bool
  deriving DecidableEq

/-- The input of `updateDocument` (`Partial<...>`): absent fields are `none`. -/
structure UpdInput where
  title : Option String := none
  content : Option String := none
  isPublic : Option Bool := none
  deriving DecidableEq

namespace Docs

/-- `doc.«alias» || doc.file_name`: JavaScript `||` falls through on null and on
the empty string. -/
def titleOf (al : Option String) (file_name : String) : String :=
  match al with
  | some a => if a = "" then file_name else a
  | none => file_name

/-- The record `documents.ts` builds from a row and downloaded content. -/
def toDoc (r : Row) (content : String) : Doc :=
  { id := r.id
    title := some (titleOf r.«alias» r.file_name)
    fileName := r.file_name
    content := content
    userId := r.user_id
    createdAt := r.created_at
    updatedAt := r.updated_at
    isPublic := r.is_public }

/-- Download the content of each row in turn; `Promise.all` rejects the whole
batch as soon as any download fails. -/
def loadDocs (s : Backend) (f : Faults) : List Row → Except Err (List Doc)
  | [] => .ok []
  | r :: rs =>
    match download s f r.storage_path with
    | none => .error (.backend (.downloadBlob r.storage_path))
    | some c =>
      match loadDocs s f rs with
      | .error e => .error e
      | .ok ds => .ok (toDoc r c :: ds)

/-- `getDocuments` of `documents.ts`: select all rows ordered by `created_at`
descending, then download every row's content; any failure throws. -/
def getDocuments (s : Backend) (f : Faults) :
    Except Err (List Doc) × Backend × List Event :=
  if f.selectAllFail then
    (.error (.backend .selectAll), s, [.selectAll])
  else
    let sorted := rowsByCreatedDesc s.rows
    (loadDocs s f sorted, s, .selectAll :: sorted.map (fun r => .downloadBlob r.storage_path))

/-- `getDocument` of `documents.ts`: select the row by id (`single()`), throw
on error, then download the content, throwing on failure.  (The `return null`
branch after the error check is unreachable, since `single()` reports an error
whenever `data` is null.) -/
def getDocument (s : Backend) (f : Faults) (id : String) :
    Except Err (Option Doc) × Backend × List Event :=
  match selectSingle s.rows f.selectFail id with
  | none => (.error (.backend (.selectRow id)), s, [.selectRow id])
  | some r =>
    match download s f r.storage_path with
    | none =>
      (.error (.backend (.downloadBlob r.storage_path)), s,
        [.selectRow id, .downloadBlob r.storage_path])
    | some c =>
      (.ok (some (toDoc r c)), s, [.selectRow id, .downloadBlob r.storage_path])

/-- `createDocument` of `documents.ts`: rpc a fresh uuid, derive the file name
`{uuid}.md` and path `{userId}/{fileName}`, insert the row (alias is
`document.title || null`), then upload the blob; if the upload fails, issue a
compensating row delete (its own result is ignored) and rethrow. -/
def createDocument (s : Backend) (f : Faults) (d : DocInput) :
    Except Err Doc × Backend × List Event :=
  let docId := genId s
  if f.rpcFail then
    (.error (.backend (.allocId docId)), s, [.allocId docId])
  else
    let s0 : Backend := { s with nextId := s.nextId + 1 }
    let fileName := docId ++ ".md"
    let storagePath := d.userId ++ "/" ++ fileName
    let row : Row :=
      { id := docId
        «alias» := if d.title = "" then none else some d.title
        file_name := fileName
        user_id := d.userId
        is_public := d.isPublic
        storage_path := storagePath
        created_at := s0.now
        updated_at := s0.now }
    if f.insertFail then
      (.error (.backend (.insertRow docId)), s0, [.allocId docId, .insertRow docId])
    else
      let s1 : Backend := { s0 with rows := s0.rows ++ [row] }
      if f.uploadFail then
        let s2 : Backend :=
          if f.compDeleteFail then s1 else { s1 with rows := delRows s1.rows docId }
        (.error (.backend (.uploadBlob storagePath)), s2,
          [.allocId docId, .insertRow docId, .uploadBlob storagePath, .deleteRow docId])
      else
        let s2 : Backend := { s1 with blobs := setBlob s1.blobs storagePath d.content }
        (.ok (toDoc row d.content), s2,
          [.allocId docId, .insertRow docId, .uploadBlob storagePath])

/-- The database row update of `updateDocument`: alias only when
`updates.title` is truthy (so neither absent nor the empty string), is_public
when given, and `updated_at` set by the table's before-update trigger. -/
def applyUpd (s : Backend) (u : UpdInput) (r : Row) : Row :=
  { r with
    «alias» :=
      match u.title with
      | some t => if t = "" then r.«alias» else some t
      | none => r.«alias»
    is_public := u.isPublic.getD r.is_public
    updated_at := s.now }

/-- `updateDocument` of `documents.ts`: select the row (error ignored, null
data throws `Document not found`); when content is supplied overwrite the blob
first, throwing on failure; then update the row, throwing on failure; finally
the returned content is `updates.content || getFileContent(...)` (the download
runs when content is absent or the empty string, and its failure throws). -/
def updateDocument (s : Backend) (f : Faults) (id : String) (u : UpdInput) :
    Except Err Doc × Backend × List Event :=
  match selectSingle s.rows f.selectFail id with
  | none => (.error .docNotFound, s, [.selectRow id])
  | some cur =>
    let path := cur.storage_path
    match u.content with
    | some c =>
      if f.blobUpdateFail then
        (.error (.backend (.updateBlob path)), s, [.selectRow id, .updateBlob path])
      else
        let s1 : Backend := { s with blobs := setBlob s.blobs path c }
        if f.rowUpdateFail then
          (.error (.backend (.updateRow id)), s1,
            [.selectRow id, .updateBlob path, .updateRow id])
        else
          let s2 : Backend := { s1 with rows := updRows s1.rows id (applyUpd s1 u) }
          let r' := applyUpd s1 u cur
          if c = "" then
            match download s2 f r'.storage_path with
            | none =>
              (.error (.backend (.downloadBlob r'.storage_path)), s2,
                [.selectRow id, .updateBlob path, .updateRow id,
                  .downloadBlob r'.storage_path])
            | some c' =>
              (.ok (toDoc r' c'), s2,
                [.selectRow id, .updateBlob path, .updateRow id,
                  .downloadBlob r'.storage_path])
          else
            (.ok (toDoc r' c), s2, [.selectRow id, .updateBlob path, .updateRow id])
    | none =>
      if f.rowUpdateFail then
        (.error (.backend (.updateRow id)), s, [.selectRow id, .updateRow id])
      else
        let s2 : Backend := { s with rows := updRows s.rows id (applyUpd s u) }
        let r' := applyUpd s u cur
        match download s2 f r'.storage_path with
        | none =>
          (.error (.backend (.downloadBlob r'.storage_path)), s2,
            [.selectRow id, .updateRow id, .downloadBlob r'.storage_path])
        | some c' =>
          (.ok (toDoc r' c'), s2,
            [.selectRow id, .updateRow id, .downloadBlob r'.storage_path])

/-- `deleteDocument` of `documents.ts`: select the row (null data throws
`Document not found`), delete the blob, throwing on failure, then delete the
row, throwing on failure. -/
def deleteDocument (s : Backend) (f : Faults) (id : String) :
    Except Err Unit × Backend × List Event :=
  match selectSingle s.rows f.selectFail id with
  | none => (.error .docNotFound, s, [.selectRow id])
  | some cur =>
    let path := cur.storage_path
    if f.removeFail then
      (.error (.backend (.removeBlob path)), s, [.selectRow id, .removeBlob path])
    else
      let s1 : Backend := { s with blobs := remBlob s.blobs path }
      if f.rowDeleteFail then
        (.error (.backend (.deleteRow id)), s1,
          [.selectRow id, .removeBlob path, .deleteRow id])
      else
        let s2 : Backend := { s1 with rows := delRows s1.rows id }
        (.ok (), s2, [.selectRow id, .removeBlob path, .deleteRow id])

end Docs

namespace DocsV2

/-- The record the `auth.ts` copy builds from a row and downloaded content:
`title` is the raw `doc.alias`, with no fall back to the file name. -/
def toDoc (r : Row) (content : String) : Doc :=
  { id := r.id
    title := r.«alias»
    fileName := r.file_name
    content := content
    userId := r.user_id
    createdAt := r.created_at
    updatedAt := r.updated_at
    isPublic := r.is_public }

/-- Per-row loading of the `auth.ts` copy: a failed content download is caught,
logged, and turned into `null`. -/
def loadDoc (s : Backend) (f : Faults) (r : Row) : Option Doc :=
  match download s f r.storage_path with
  | none => none
  | some c => some (toDoc r c)

/-- `getDocuments` of the `auth.ts` copy: select all rows ordered by
`created_at` descending; rows whose content download fails are skipped
(`docs.filter(doc => doc !== null)`), not errors. -/
def getDocuments (s : Backend) (f : Faults) :
    Except Err (List Doc) × Backend × List Event :=
  if f.selectAllFail then
    (.error (.backend .selectAll), s, [.selectAll])
  else
    let sorted := rowsByCreatedDesc s.rows
    (.ok (sorted.filterMap (loadDoc s f)), s,
      .selectAll :: sorted.map (fun r => .downloadBlob r.storage_path))

/-- `getDocument` of the `auth.ts` copy: a row-fetch error returns `null`
(logged, not thrown), and a content-fetch error also returns `null`. -/
def getDocument (s : Backend) (f : Faults) (id : String) :
    Except Err (Option Doc) × Backend × List Event :=
  match selectSingle s.rows f.selectFail id with
  | none => (.ok none, s, [.selectRow id])
  | some r =>
    match download s f r.storage_path with
    | none => (.ok none, s, [.selectRow id, .downloadBlob r.storage_path])
    | some c => (.ok (some (toDoc r c)), s, [.selectRow id, .downloadBlob r.storage_path])

/-- `createDocument` of the `auth.ts` copy: rpc a fresh uuid, build the path
`{userId}/{fileName}` from the caller-supplied file name, insert the row
(alias is `document.title`, stored as is), then upload the blob; on upload
failure issue the compensating row delete (result ignored) and rethrow. -/
def createDocument (s : Backend) (f : Faults) (d : DocInput) :
    Except Err Doc × Backend × List Event :=
  let docId := genId s
  if f.rpcFail then
    (.error (.backend (.allocId docId)), s, [.allocId docId])
  else
    let s0 : Backend := { s with nextId := s.nextId + 1 }
    let storagePath := d.userId ++ "/" ++ d.fileName
    let row : Row :=
      { id := docId
        «alias» := some d.title
        file_name := d.fileName
        user_id := d.userId
        is_public := d.isPublic
        storage_path := storagePath
        created_at := s0.now
        updated_at := s0.now }
    if f.insertFail then
      (.error (.backend (.insertRow docId)), s0, [.allocId docId, .insertRow docId])
    else
      let s1 : Backend := { s0 with rows := s0.rows ++ [row] }
      if f.uploadFail then
        let s2 : Backend :=
          if f.compDeleteFail then s1 else { s1 with rows := delRows s1.rows docId }
        (.error (.backend (.uploadBlob storagePath)), s2,
          [.allocId docId, .insertRow docId, .uploadBlob storagePath, .deleteRow docId])
      else
        let s2 : Backend := { s1 with blobs := setBlob s1.blobs storagePath d.content }
        (.ok (toDoc row d.content), s2,
          [.allocId docId, .insertRow docId, .uploadBlob storagePath])

/-- The row update of the `auth.ts` copy: `updated_at` is set explicitly,
alias whenever `updates.title !== undefined`, is_public when given. -/
def applyUpd (s : Backend) (u : UpdInput) (r : Row) : Row :=
  { r with
    «alias» :=
      match u.title with
      | some t => some t
      | none => r.«alias»
    is_public := u.isPublic.getD r.is_public
    updated_at := s.now }

/-- `updateDocument` of the `auth.ts` copy: select the row (null data throws
`Document not found`); when content is supplied overwrite the blob first,
throwing on failure; then update the row, throwing on failure; the returned
content is `updates.content || getFileContent(...)`. -/
def updateDocument (s : Backend) (f : Faults) (id : String) (u : UpdInput) :
    Except Err Doc × Backend × List Event :=
  match selectSingle s.rows f.selectFail id with
  | none => (.error .docNotFound, s, [.selectRow id])
  | some cur =>
    let path := cur.storage_path
    match u.content with
    | some c =>
      if f.blobUpdateFail then
        (.error (.backend (.updateBlob path)), s, [.selectRow id, .updateBlob path])
      else
        let s1 : Backend := { s with blobs := setBlob s.blobs path c }
        if f.rowUpdateFail then
          (.error (.backend (.updateRow id)), s1,
            [.selectRow id, .updateBlob path, .updateRow id])
        else
          let s2 : Backend := { s1 with rows := updRows s1.rows id (applyUpd s1 u) }
          let r' := applyUpd s1 u cur
          if c = "" then
            match download s2 f r'.storage_path with
            | none =>
              (.error (.backend (.downloadBlob r'.storage_path)), s2,
                [.selectRow id, .updateBlob path, .updateRow id,
                  .downloadBlob r'.storage_path])
            | some c' =>
              (.ok (toDoc r' c'), s2,
                [.selectRow id, .updateBlob path, .updateRow id,
                  .downloadBlob r'.storage_path])
          else
            (.ok (toDoc r' c), s2, [.selectRow id, .updateBlob path, .updateRow id])
    | none =>
      if f.rowUpdateFail then
        (.error (.backend (.updateRow id)), s, [.selectRow id, .updateRow id])
      else
        let s2 : Backend := { s with rows := updRows s.rows id (applyUpd s u) }
        let r' := applyUpd s u cur
        match download s2 f r'.storage_path with
        | none =>
          (.error (.backend (.downloadBlob r'.storage_path)), s2,
            [.selectRow id, .updateRow id, .downloadBlob r'.storage_path])
        | some c' =>
          (.ok (toDoc r' c'), s2,
            [.selectRow id, .updateRow id, .downloadBlob r'.storage_path])

/-- `deleteDocument` of the `auth.ts` copy (identical to `documents.ts`):
select the row (null data throws `Document not found`), delete the blob,
throwing on failure, then delete the row, throwing on failure. -/
def deleteDocument (s : Backend) (f : Faults) (id : String) :
    Except Err Unit × Backend × List Event :=
  match selectSingle s.rows f.selectFail id with
  | none => (.error .docNotFound, s, [.selectRow id])
  | some cur =>
    let path := cur.storage_path
    if f.removeFail then
      (.error (.backend (.removeBlob path)), s, [.selectRow id, .removeBlob path])
    else
      let s1 : Backend := { s with blobs := remBlob s.blobs path }
      if f.rowDeleteFail then
        (.error (.backend (.deleteRow id)), s1,
          [.selectRow id, .removeBlob path, .deleteRow id])
      else
        let s2 : Backend := { s1 with rows := delRows s1.rows id }
        (.ok (), s2, [.selectRow id, .removeBlob path, .deleteRow id])

end DocsV2


/-- Fields of a row that `updateDocument` never changes, plus: rows other than
the targeted one are untouched entirely. -/
def frameRel (id : String) (r r' : Row) : Prop :=
  r'.id = r.id ∧ r'.file_name = r.file_name ∧ r'.user_id = r.user_id ∧
  r'.storage_path = r.storage_path ∧ r'.created_at = r.created_at ∧
  (r.id ≠ id → r' = r)

instance : IsTotal Row (fun a b => b.created_at ≤ a.created_at) :=
  ⟨fun a b => Nat.le_total b.created_at a.created_at⟩

instance : IsTrans Row (fun a b => b.created_at ≤ a.created_at) :=
  ⟨fun _ _ _ hab hbc => Nat.le_trans hbc hab⟩

/-! ### Concrete fixtures used by counterexamples and witnesses -/

/-- `e₁` occurs strictly before `e₂` in the trace (as a two-element
subsequence), checked greedily. -/
def isSubseq : List Event → List Event → Bool
  | [], _ => true
  | _ :: _, [] => false
  | a :: as, b :: bs => if a = b then isSubseq as bs else isSubseq (a :: as) bs

/-- A sample stored row. -/
def exRow : Row :=
  { id := "d1"
    «alias» := none
    file_name := "f1.md"
    user_id := "u1"
    is_public := false
    storage_path := "u1/f1.md"
    created_at := 1
    updated_at := 1 }

/-- A sample backend state: one row whose blob is stored. -/
def exState : Backend :=
  { rows := [exRow]
    blobs := [("u1/f1.md", "hello")]
    nextId := 0
    now := 5 }

/-- A sample `createDocument` input. -/
def exInput : DocInput :=
  { title := "T"
    fileName := "f2.md"
    content := "body"
    userId := "u1"
    isPublic := true }

/-- The fault schedule in which only the storage upload fails. -/
def exUpFaults : Faults := { uploadFail := true }

/-- The row `createDocument` of `documents.ts` inserts for input `d` in
state `s`. -/
def createdRowDocs (s : Backend) (d : DocInput) : Row :=
  { id := genId s
    «alias» := if d.title = "" then none else some d.title
    file_name := genId s ++ ".md"
    user_id := d.userId
    is_public := d.isPublic
    storage_path := d.userId ++ "/" ++ (genId s ++ ".md")
    created_at := s.now
    updated_at := s.now }

/-- The row `createDocument` of the `auth.ts` copy inserts for input `d` in
state `s`. -/
def createdRowV2 (s : Backend) (d : DocInput) : Row :=
  { id := genId s
    «alias» := some d.title
    file_name := d.fileName
    user_id := d.userId
    is_public := d.isPublic
    storage_path := d.userId ++ "/" ++ d.fileName
    created_at := s.now
    updated_at := s.now }

/-! ### Helper lemmas about the backend primitives -/

theorem delRows_eq_self (rows : List Row) (id : String)
    (h : ∀ r ∈ rows, r.id ≠ id) : delRows rows id = rows := by
  simp only [delRows]
  rw [List.filter_eq_self]
  intro r hr
  simpa using h r hr

theorem delRows_append (a b : List Row) (id : String) :
    delRows (a ++ b) id = delRows a id ++ delRows b id := by
  simp [delRows]

theorem filter_eq_nil_of_fresh (rows : List Row) (id : String)
    (h : ∀ r ∈ rows, r.id ≠ id) :
    rows.filter (fun r => r.id == id) = [] := by
  rw [List.filter_eq_nil_iff]
  intro r hr
  simpa using h r hr

theorem selectSingle_none (rows : List Row) (fail : Bool) (id : String)
    (h : ∀ r ∈ rows, r.id ≠ id) : selectSingle rows fail id = none := by
  unfold selectSingle
  rw [filter_eq_nil_of_fresh rows id h]
  split <;> rfl

theorem selectSingle_of_filter (rows : List Row) (id : String) (r : Row)
    (h : rows.filter (fun x => x.id == id) = [r]) :
    selectSingle rows false id = some r := by
  unfold selectSingle
  rw [h]
  simp

theorem filter_single_mem (rows : List Row) (p : Row → Bool) (r : Row)
    (h : rows.filter p = [r]) : r ∈ rows ∧ p r = true := by
  have : r ∈ rows.filter p := by rw [h]; exact List.mem_singleton_self r
  exact ⟨(List.mem_filter.mp this).1, (List.mem_filter.mp this).2⟩

theorem selectSingle_mem (rows : List Row) (fail : Bool) (id : String) (r : Row)
    (h : selectSingle rows fail id = some r) : r ∈ rows ∧ r.id = id := by
  unfold selectSingle at h
  split at h
  · exact absurd h (by simp)
  · revert h
    generalize hf : rows.filter (fun x => x.id == id) = l
    match l with
    | [] => intro h; exact absurd h (by simp)
    | [a] =>
      intro h
      have ha : a = r := by simpa using h
      subst ha
      have := filter_single_mem rows _ a hf
      exact ⟨this.1, by simpa using this.2⟩
    | a :: b :: t => intro h; exact absurd h (by simp)

theorem lookupBlob_setBlob_self (blobs : List (String × String)) (p c : String) :
    lookupBlob (setBlob blobs p c) p = some c := by
  simp [lookupBlob, setBlob]

theorem find?_filter_ne (l : List (String × String)) (p q : String) (h : q ≠ p) :
    (l.filter (fun b => b.1 != p)).find? (fun b => b.1 == q) =
      l.find? (fun b => b.1 == q) := by
  induction l with
  | nil => rfl
  | cons x t ih =>
    by_cases hxq : x.1 = q
    · simp [List.filter_cons, List.find?_cons, hxq, h]
    · by_cases hxp : x.1 = p
      · simp [List.filter_cons, List.find?_cons, hxp, Ne.symm h, ih]
      · simp [List.filter_cons, List.find?_cons, hxq, hxp, ih]

theorem lookupBlob_setBlob_ne (blobs : List (String × String)) (p c q : String)
    (h : q ≠ p) : lookupBlob (setBlob blobs p c) q = lookupBlob blobs q := by
  simp only [lookupBlob, setBlob, List.find?_cons]
  have : (p == q) = false := by simpa using fun e => h e.symm
  rw [this]
  simp only [find?_filter_ne blobs p q h]

theorem lookupBlob_remBlob_self (blobs : List (String × String)) (p : String) :
    lookupBlob (remBlob blobs p) p = none := by
  simp only [lookupBlob, remBlob]
  rw [List.find?_eq_none.mpr]
  · rfl
  · intro x hx
    have := (List.mem_filter.mp hx).2
    simpa using this

theorem lookupBlob_remBlob_ne (blobs : List (String × String)) (p q : String)
    (h : q ≠ p) : lookupBlob (remBlob blobs p) q = lookupBlob blobs q := by
  simp only [lookupBlob, remBlob, find?_filter_ne blobs p q h]

/-! ### Lemmas about batch loading and sorting -/

theorem loadDocs_error_download (s : Backend) (f : Faults) (rs : List Row)
    (r : Row) (hr : r ∈ rs) (hd : download s f r.storage_path = none) :
    ∃ r' ∈ rs, download s f r'.storage_path = none ∧
      Docs.loadDocs s f rs = .error (.backend (.downloadBlob r'.storage_path)) := by
  induction rs with
  | nil => cases hr
  | cons a t ih =>
    cases hda : download s f a.storage_path with
    | none =>
      refine ⟨a, List.mem_cons_self a t, hda, ?_⟩
      unfold Docs.loadDocs
      rw [hda]
    | some c =>
      rcases List.mem_cons.mp hr with rfl | ht
      · rw [hda] at hd
        cases hd
      · obtain ⟨r', hrm, hd', he⟩ := ih ht
        refine ⟨r', List.mem_cons_of_mem a hrm, hd', ?_⟩
        unfold Docs.loadDocs
        rw [hda, he]

theorem loadDocs_ok_mem (s : Backend) (f : Faults) (rs : List Row) (ds : List Doc)
    (h : Docs.loadDocs s f rs = .ok ds) :
    ∀ d ∈ ds, ∃ r ∈ rs, ∃ c, d = Docs.toDoc r c := by
  induction rs generalizing ds with
  | nil =>
    unfold Docs.loadDocs at h
    obtain rfl : ([] : List Doc) = ds := by simpa using h
    intro d hd
    cases hd
  | cons a t ih =>
    unfold Docs.loadDocs at h
    cases hda : download s f a.storage_path with
    | none => rw [hda] at h; cases h
    | some c =>
      rw [hda] at h
      cases ht : Docs.loadDocs s f t with
      | error e => rw [ht] at h; cases h
      | ok ds' =>
        rw [ht] at h
        obtain rfl : Docs.toDoc a c :: ds' = ds := by simpa using h
        intro d hd
        rcases List.mem_cons.mp hd with rfl | hd'
        · exact ⟨a, List.mem_cons_self a t, c, rfl⟩
        · obtain ⟨r, hrm, c', hc'⟩ := ih ds' ht d hd'
          exact ⟨r, List.mem_cons_of_mem a hrm, c', hc'⟩

theorem loadDocs_ok_created (s : Backend) (f : Faults) (rs : List Row) (ds : List Doc)
    (h : Docs.loadDocs s f rs = .ok ds) :
    ds.map (fun d => d.createdAt) = rs.map (fun r => r.created_at) := by
  induction rs generalizing ds with
  | nil =>
    unfold Docs.loadDocs at h
    obtain rfl : ([] : List Doc) = ds := by simpa using h
    rfl
  | cons a t ih =>
    unfold Docs.loadDocs at h
    cases hda : download s f a.storage_path with
    | none => rw [hda] at h; cases h
    | some c =>
      rw [hda] at h
      cases ht : Docs.loadDocs s f t with
      | error e => rw [ht] at h; cases h
      | ok ds' =>
        rw [ht] at h
        obtain rfl : Docs.toDoc a c :: ds' = ds := by simpa using h
        simpa [Docs.toDoc] using ih ds' ht


theorem rowsByCreatedDesc_sorted (rows : List Row) :
    (rowsByCreatedDesc rows).Pairwise (fun a b => b.created_at ≤ a.created_at) := by
  unfold rowsByCreatedDesc
  exact List.sorted_insertionSort (fun a b => b.created_at ≤ a.created_at) rows

theorem rowsByCreatedDesc_mem (rows : List Row) (r : Row) (h : r ∈ rows) :
    r ∈ rowsByCreatedDesc rows := by
  unfold rowsByCreatedDesc
  exact (List.perm_insertionSort (fun a b => b.created_at ≤ a.created_at) rows).mem_iff.mpr h

theorem rowsByCreatedDesc_mem_rev (rows : List Row) (r : Row)
    (h : r ∈ rowsByCreatedDesc rows) : r ∈ rows := by
  rw [rowsByCreatedDesc] at h
  exact (List.Perm.mem_iff
    (List.perm_insertionSort (fun a b => b.created_at ≤ a.created_at) rows)).mp h

/-! ### The frame relation used by the update claims -/


theorem frameRel_refl (id : String) (r : Row) : frameRel id r r :=
  ⟨rfl, rfl, rfl, rfl, rfl, fun _ => rfl⟩

theorem forall₂_frameRel_refl (id : String) (rows : List Row) :
    List.Forall₂ (frameRel id) rows rows := by
  induction rows with
  | nil => exact List.Forall₂.nil
  | cons a t ih => exact List.Forall₂.cons (frameRel_refl id a) ih

theorem forall₂_frameRel_updRows (id : String) (rows : List Row) (g : Row → Row)
    (hg : ∀ r, (g r).id = r.id ∧ (g r).file_name = r.file_name ∧
      (g r).user_id = r.user_id ∧ (g r).storage_path = r.storage_path ∧
      (g r).created_at = r.created_at) :
    List.Forall₂ (frameRel id) rows (updRows rows id g) := by
  induction rows with
  | nil => exact List.Forall₂.nil
  | cons a t ih =>
    unfold updRows
    simp only [List.map_cons]
    by_cases ha : a.id = id
    · have hb : (a.id == id) = true := by simpa using ha
      rw [hb]
      simp only [if_true]
      refine List.Forall₂.cons ?_ ih
      obtain ⟨h1, h2, h3, h4, h5⟩ := hg a
      exact ⟨h1, h2, h3, h4, h5, fun hne => absurd ha hne⟩
    · have hb : (a.id == id) = false := by simpa using ha
      rw [hb]
      simp only [Bool.false_eq_true, if_false]
      exact List.Forall₂.cons (frameRel_refl id a) ih


/-! ### C1 -/

/-- C1: if the storage upload inside `createDocument` fails (the id rpc and
the row insert having succeeded, and the best-effort compensating delete
itself going through), the just-inserted row is deleted again — the table and
the bucket are exactly as before the call — and the upload error is the one
propagated to the caller.  This holds for both copies of the module. -/
theorem C1_create_upload_failure_compensates
    (s : Backend) (f : Faults) (d : DocInput)
    (hrpc : f.rpcFail = false) (hins : f.insertFail = false)
    (hup : f.uploadFail = true) (hcomp : f.compDeleteFail = false)
    (hfresh : ∀ r ∈ s.rows, r.id ≠ genId s) :
    (Docs.createDocument s f d).1 =
      .error (.backend (.uploadBlob (d.userId ++ "/" ++ (genId s ++ ".md")))) ∧
    (Docs.createDocument s f d).2.1.rows = s.rows ∧
    (Docs.createDocument s f d).2.1.blobs = s.blobs ∧
    (DocsV2.createDocument s f d).1 =
      .error (.backend (.uploadBlob (d.userId ++ "/" ++ d.fileName))) ∧
    (DocsV2.createDocument s f d).2.1.rows = s.rows ∧
    (DocsV2.createDocument s f d).2.1.blobs = s.blobs := by
  have hdel : ∀ row : Row, row.id = genId s →
      delRows (s.rows ++ [row]) (genId s) = s.rows := by
    intro row hrow
    rw [delRows_append, delRows_eq_self s.rows _ hfresh]
    simp [delRows, hrow]
  refine ⟨?_, ?_, ?_, ?_, ?_, ?_⟩ <;>
    simp [Docs.createDocument, DocsV2.createDocument, hrpc, hins, hup, hcomp, hdel]


/-- C1 witness: the compensation theorem applied at a concrete state, input
and fault schedule. -/
theorem C1_witness :
    (exUpFaults.rpcFail = false ∧ exUpFaults.insertFail = false ∧
      exUpFaults.uploadFail = true ∧ exUpFaults.compDeleteFail = false ∧
      (∀ r ∈ exState.rows, r.id ≠ genId exState)) ∧
    (Docs.createDocument exState exUpFaults exInput).1 =
      .error (.backend (.uploadBlob (exInput.userId ++ "/" ++ (genId exState ++ ".md")))) ∧
    (Docs.createDocument exState exUpFaults exInput).2.1.rows = exState.rows :=
  ⟨⟨rfl, rfl, rfl, rfl, by decide⟩,
    (C1_create_upload_failure_compensates exState exUpFaults exInput rfl rfl rfl rfl
      (by decide)).1,
    (C1_create_upload_failure_compensates exState exUpFaults exInput rfl rfl rfl rfl
      (by decide)).2.1⟩

/-! ### C2 -/

/-- C2 counterexample: on a concrete input the trace of `createDocument` is
id allocation, then row insert, then blob upload — the blob upload does NOT
precede the row insert as the claim states (it follows it). -/
theorem C2_counterexample :
    (Docs.createDocument exState noFaults exInput).2.2 =
      [.allocId "uuid-0", .insertRow "uuid-0", .uploadBlob "u1/uuid-0.md"] ∧
    isSubseq [.uploadBlob "u1/uuid-0.md", .insertRow "uuid-0"]
      (Docs.createDocument exState noFaults exInput).2.2 = false ∧
    isSubseq [.insertRow "uuid-0", .uploadBlob "u1/uuid-0.md"]
      (Docs.createDocument exState noFaults exInput).2.2 = true := by
  refine ⟨by decide, by decide, by decide⟩

/-- C2 amended: `createDocument` allocates an id, then inserts the database
row (whose `storage_path` references the blob path `{ownerId}/{fileName}`),
and only then writes the storage blob at that path.  In the `documents.ts`
copy the file name is `{id}.md`; in the `auth.ts` copy it is the
caller-supplied file name. -/
theorem C2_create_order (s : Backend) (f : Faults) (d : DocInput)
    (hrpc : f.rpcFail = false) (hins : f.insertFail = false)
    (hup : f.uploadFail = false) :
    (Docs.createDocument s f d).2.2 =
      [.allocId (genId s), .insertRow (genId s),
        .uploadBlob (d.userId ++ "/" ++ (genId s ++ ".md"))] ∧
    (∃ row : Row, (Docs.createDocument s f d).2.1.rows = s.rows ++ [row] ∧
      row.id = genId s ∧
      row.storage_path = d.userId ++ "/" ++ (genId s ++ ".md") ∧
      lookupBlob (Docs.createDocument s f d).2.1.blobs row.storage_path =
        some d.content) ∧
    (DocsV2.createDocument s f d).2.2 =
      [.allocId (genId s), .insertRow (genId s),
        .uploadBlob (d.userId ++ "/" ++ d.fileName)] ∧
    (∃ row : Row, (DocsV2.createDocument s f d).2.1.rows = s.rows ++ [row] ∧
      row.id = genId s ∧
      row.storage_path = d.userId ++ "/" ++ d.fileName ∧
      lookupBlob (DocsV2.createDocument s f d).2.1.blobs row.storage_path =
        some d.content) := by
  refine ⟨?_, ?_, ?_, ?_⟩
  · simp [Docs.createDocument, hrpc, hins, hup]
  · refine ⟨{ id := genId s
              «alias» := if d.title = "" then none else some d.title
              file_name := genId s ++ ".md"
              user_id := d.userId
              is_public := d.isPublic
              storage_path := d.userId ++ "/" ++ (genId s ++ ".md")
              created_at := s.now
              updated_at := s.now }, ?_, rfl, rfl, ?_⟩
    · simp [Docs.createDocument, hrpc, hins, hup]
    · simp [Docs.createDocument, hrpc, hins, hup, lookupBlob_setBlob_self]
  · simp [DocsV2.createDocument, hrpc, hins, hup]
  · refine ⟨{ id := genId s
              «alias» := some d.title
              file_name := d.fileName
              user_id := d.userId
              is_public := d.isPublic
              storage_path := d.userId ++ "/" ++ d.fileName
              created_at := s.now
              updated_at := s.now }, ?_, rfl, rfl, ?_⟩
    · simp [DocsV2.createDocument, hrpc, hins, hup]
    · simp [DocsV2.createDocument, hrpc, hins, hup, lookupBlob_setBlob_self]

/-- C2 witness: the amended ordering theorem applied at a concrete state,
input and the fault-free schedule. -/
theorem C2_witness :
    (noFaults.rpcFail = false ∧ noFaults.insertFail = false ∧
      noFaults.uploadFail = false) ∧
    (Docs.createDocument exState noFaults exInput).2.2 =
      [.allocId (genId exState), .insertRow (genId exState),
        .uploadBlob (exInput.userId ++ "/" ++ (genId exState ++ ".md"))] :=
  ⟨⟨rfl, rfl, rfl⟩, (C2_create_order exState noFaults exInput rfl rfl rfl).1⟩

/-! ### C3 -/

/-- C3: with a fault-free backend, creating a document and then reading it
back by the returned id yields the content supplied at creation, in both
copies of the module. -/
theorem C3_create_then_get (s : Backend) (d : DocInput)
    (hfresh : ∀ r ∈ s.rows, r.id ≠ genId s) :
    (∃ doc : Doc, (Docs.createDocument s noFaults d).1 = .ok doc ∧
      ∃ doc' : Doc,
        (Docs.getDocument (Docs.createDocument s noFaults d).2.1 noFaults doc.id).1 =
          .ok (some doc') ∧ doc'.content = d.content) ∧
    (∃ doc : Doc, (DocsV2.createDocument s noFaults d).1 = .ok doc ∧
      ∃ doc' : Doc,
        (DocsV2.getDocument (DocsV2.createDocument s noFaults d).2.1 noFaults doc.id).1 =
          .ok (some doc') ∧ doc'.content = d.content) := by
  have hfilter : ∀ row : Row, row.id = genId s →
      (s.rows ++ [row]).filter (fun x => x.id == genId s) = [row] := by
    intro row hrow
    rw [List.filter_append, filter_eq_nil_of_fresh s.rows _ hfresh]
    simp [hrow]
  constructor
  · have hc : Docs.createDocument s noFaults d =
        (.ok (Docs.toDoc (createdRowDocs s d) d.content),
          { rows := s.rows ++ [createdRowDocs s d],
            blobs := setBlob s.blobs (createdRowDocs s d).storage_path d.content,
            nextId := s.nextId + 1, now := s.now },
          [.allocId (genId s), .insertRow (genId s),
            .uploadBlob (createdRowDocs s d).storage_path]) := by
      simp [Docs.createDocument, Docs.toDoc, createdRowDocs, noFaults]
    have hid : (Docs.toDoc (createdRowDocs s d) d.content).id = genId s := rfl
    have hsel : selectSingle (s.rows ++ [createdRowDocs s d]) false (genId s) =
        some (createdRowDocs s d) :=
      selectSingle_of_filter _ _ _ (hfilter (createdRowDocs s d) rfl)
    refine ⟨Docs.toDoc (createdRowDocs s d) d.content, ?_, ?_⟩
    · rw [hc]
    · refine ⟨Docs.toDoc (createdRowDocs s d) d.content, ?_, rfl⟩
      rw [hc]
      simp [Docs.getDocument, hid, hsel, download, noFaults, lookupBlob_setBlob_self]
  · have hc : DocsV2.createDocument s noFaults d =
        (.ok (DocsV2.toDoc (createdRowV2 s d) d.content),
          { rows := s.rows ++ [createdRowV2 s d],
            blobs := setBlob s.blobs (createdRowV2 s d).storage_path d.content,
            nextId := s.nextId + 1, now := s.now },
          [.allocId (genId s), .insertRow (genId s),
            .uploadBlob (createdRowV2 s d).storage_path]) := by
      simp [DocsV2.createDocument, DocsV2.toDoc, createdRowV2, noFaults]
    have hid : (DocsV2.toDoc (createdRowV2 s d) d.content).id = genId s := rfl
    have hsel : selectSingle (s.rows ++ [createdRowV2 s d]) false (genId s) =
        some (createdRowV2 s d) :=
      selectSingle_of_filter _ _ _ (hfilter (createdRowV2 s d) rfl)
    refine ⟨DocsV2.toDoc (createdRowV2 s d) d.content, ?_, ?_⟩
    · rw [hc]
    · refine ⟨DocsV2.toDoc (createdRowV2 s d) d.content, ?_, rfl⟩
      rw [hc]
      simp [DocsV2.getDocument, hid, hsel, download, noFaults, lookupBlob_setBlob_self]

/-- C3 witness: the roundtrip theorem applied at a concrete state and input. -/
theorem C3_witness :
    (∀ r ∈ exState.rows, r.id ≠ genId exState) ∧
    (∃ doc : Doc, (Docs.createDocument exState noFaults exInput).1 = .ok doc ∧
      ∃ doc' : Doc,
        (Docs.getDocument (Docs.createDocument exState noFaults exInput).2.1
            noFaults doc.id).1 = .ok (some doc') ∧
        doc'.content = exInput.content) :=
  ⟨by decide, (C3_create_then_get exState exInput (by decide)).1⟩

/-! ### C4 -/

/-- C4: when the updates include content, `updateDocument` overwrites the
storage blob before touching the database row; if the blob write fails the
error propagates and the state is untouched; if the row update fails after a
successful blob write, the error propagates, the rows are unchanged, and the
new content remains in storage (no rollback).  Both copies of the module. -/
theorem C4_update_content_blob_first (s : Backend) (f : Faults) (id : String)
    (u : UpdInput) (c : String) (cur : Row)
    (hc : u.content = some c) (hsf : f.selectFail = false)
    (hfilter : s.rows.filter (fun r => r.id == id) = [cur]) :
    (f.blobUpdateFail = false → f.rowUpdateFail = false →
      (Docs.updateDocument s f id u).2.2.take 3 =
        [.selectRow id, .updateBlob cur.storage_path, .updateRow id] ∧
      (DocsV2.updateDocument s f id u).2.2.take 3 =
        [.selectRow id, .updateBlob cur.storage_path, .updateRow id]) ∧
    (f.blobUpdateFail = true →
      Docs.updateDocument s f id u =
        (.error (.backend (.updateBlob cur.storage_path)), s,
          [.selectRow id, .updateBlob cur.storage_path]) ∧
      DocsV2.updateDocument s f id u =
        (.error (.backend (.updateBlob cur.storage_path)), s,
          [.selectRow id, .updateBlob cur.storage_path])) ∧
    (f.blobUpdateFail = false → f.rowUpdateFail = true →
      (Docs.updateDocument s f id u).1 = .error (.backend (.updateRow id)) ∧
      (Docs.updateDocument s f id u).2.1.rows = s.rows ∧
      lookupBlob (Docs.updateDocument s f id u).2.1.blobs cur.storage_path =
        some c ∧
      (DocsV2.updateDocument s f id u).1 = .error (.backend (.updateRow id)) ∧
      (DocsV2.updateDocument s f id u).2.1.rows = s.rows ∧
      lookupBlob (DocsV2.updateDocument s f id u).2.1.blobs cur.storage_path =
        some c) := by
  have hss : selectSingle s.rows f.selectFail id = some cur := by
    rw [hsf]
    exact selectSingle_of_filter _ _ _ hfilter
  refine ⟨?_, ?_, ?_⟩
  · intro h1 h2
    constructor <;> by_cases hcc : c = "" <;>
      simp [Docs.updateDocument, DocsV2.updateDocument, hss, hc, h1, h2, hcc] <;>
      split <;> simp
  · intro h1
    constructor <;>
      simp [Docs.updateDocument, DocsV2.updateDocument, hss, hc, h1]
  · intro h1 h2
    refine ⟨?_, ?_, ?_, ?_, ?_, ?_⟩ <;>
      simp [Docs.updateDocument, DocsV2.updateDocument, hss, hc, h1, h2,
        lookupBlob_setBlob_self]

/-- The update input that only replaces the content. -/
def exUpd : UpdInput := { content := some "new" }

/-- C4 witness: the update-ordering theorem applied at a concrete state,
update input and the fault-free schedule. -/
theorem C4_witness :
    (exUpd.content = some "new" ∧ noFaults.selectFail = false ∧
      exState.rows.filter (fun r => r.id == "d1") = [exRow]) ∧
    (Docs.updateDocument exState noFaults "d1" exUpd).2.2.take 3 =
      [.selectRow "d1", .updateBlob exRow.storage_path, .updateRow "d1"] :=
  ⟨⟨rfl, rfl, by decide⟩,
    ((C4_update_content_blob_first exState noFaults "d1" exUpd "new" exRow rfl rfl
      (by decide)).1 rfl rfl).1⟩

/-! ### C5 -/

theorem delRows_not_mem (rows : List Row) (id : String) :
    ∀ r ∈ delRows rows id, r.id ≠ id := by
  intro r hr
  have := (List.mem_filter.mp hr).2
  simpa using this

/-- C5: `deleteDocument` reads the row, then deletes the blob, then deletes
the row; on full success both the row and the blob are gone, and if the row
deletion fails after the blob was already deleted, the error propagates while
the blob deletion stands — the row remains, referencing a missing blob.
Both copies of the module (their `deleteDocument` is identical). -/
theorem C5_delete_order (s : Backend) (f : Faults) (id : String) (cur : Row)
    (hsf : f.selectFail = false)
    (hfilter : s.rows.filter (fun r => r.id == id) = [cur]) :
    (f.removeFail = false → f.rowDeleteFail = false →
      (Docs.deleteDocument s f id).1 = .ok () ∧
      (Docs.deleteDocument s f id).2.2 =
        [.selectRow id, .removeBlob cur.storage_path, .deleteRow id] ∧
      (∀ r ∈ (Docs.deleteDocument s f id).2.1.rows, r.id ≠ id) ∧
      lookupBlob (Docs.deleteDocument s f id).2.1.blobs cur.storage_path = none ∧
      (DocsV2.deleteDocument s f id).1 = .ok () ∧
      (DocsV2.deleteDocument s f id).2.2 =
        [.selectRow id, .removeBlob cur.storage_path, .deleteRow id] ∧
      (∀ r ∈ (DocsV2.deleteDocument s f id).2.1.rows, r.id ≠ id) ∧
      lookupBlob (DocsV2.deleteDocument s f id).2.1.blobs cur.storage_path = none) ∧
    (f.removeFail = false → f.rowDeleteFail = true →
      (Docs.deleteDocument s f id).1 = .error (.backend (.deleteRow id)) ∧
      (Docs.deleteDocument s f id).2.1.rows = s.rows ∧
      cur ∈ (Docs.deleteDocument s f id).2.1.rows ∧
      lookupBlob (Docs.deleteDocument s f id).2.1.blobs cur.storage_path = none ∧
      (DocsV2.deleteDocument s f id).1 = .error (.backend (.deleteRow id)) ∧
      (DocsV2.deleteDocument s f id).2.1.rows = s.rows ∧
      cur ∈ (DocsV2.deleteDocument s f id).2.1.rows ∧
      lookupBlob (DocsV2.deleteDocument s f id).2.1.blobs cur.storage_path = none) := by
  have hss : selectSingle s.rows f.selectFail id = some cur := by
    rw [hsf]
    exact selectSingle_of_filter _ _ _ hfilter
  have hcur : cur ∈ s.rows := (filter_single_mem s.rows _ cur hfilter).1
  constructor
  · intro h1 h2
    have hD : Docs.deleteDocument s f id =
        (.ok (),
          { rows := delRows s.rows id, blobs := remBlob s.blobs cur.storage_path,
            nextId := s.nextId, now := s.now },
          [.selectRow id, .removeBlob cur.storage_path, .deleteRow id]) := by
      simp [Docs.deleteDocument, hss, h1, h2]
    have hD2 : DocsV2.deleteDocument s f id =
        (.ok (),
          { rows := delRows s.rows id, blobs := remBlob s.blobs cur.storage_path,
            nextId := s.nextId, now := s.now },
          [.selectRow id, .removeBlob cur.storage_path, .deleteRow id]) := by
      simp [DocsV2.deleteDocument, hss, h1, h2]
    rw [hD, hD2]
    exact ⟨rfl, rfl, delRows_not_mem s.rows id,
      lookupBlob_remBlob_self s.blobs cur.storage_path, rfl, rfl,
      delRows_not_mem s.rows id, lookupBlob_remBlob_self s.blobs cur.storage_path⟩
  · intro h1 h2
    have hD : Docs.deleteDocument s f id =
        (.error (.backend (.deleteRow id)),
          { rows := s.rows, blobs := remBlob s.blobs cur.storage_path,
            nextId := s.nextId, now := s.now },
          [.selectRow id, .removeBlob cur.storage_path, .deleteRow id]) := by
      simp [Docs.deleteDocument, hss, h1, h2]
    have hD2 : DocsV2.deleteDocument s f id =
        (.error (.backend (.deleteRow id)),
          { rows := s.rows, blobs := remBlob s.blobs cur.storage_path,
            nextId := s.nextId, now := s.now },
          [.selectRow id, .removeBlob cur.storage_path, .deleteRow id]) := by
      simp [DocsV2.deleteDocument, hss, h1, h2]
    rw [hD, hD2]
    exact ⟨rfl, rfl, hcur, lookupBlob_remBlob_self s.blobs cur.storage_path,
      rfl, rfl, hcur, lookupBlob_remBlob_self s.blobs cur.storage_path⟩

/-- C5 witness: the deletion theorem applied at a concrete state with the
fault-free schedule: the document's row and blob are both removed. -/
theorem C5_witness :
    (noFaults.selectFail = false ∧
      exState.rows.filter (fun r => r.id == "d1") = [exRow]) ∧
    (Docs.deleteDocument exState noFaults "d1").1 = .ok () ∧
    (Docs.deleteDocument exState noFaults "d1").2.2 =
      [.selectRow "d1", .removeBlob exRow.storage_path, .deleteRow "d1"] :=
  ⟨⟨rfl, by decide⟩,
    ((C5_delete_order exState noFaults "d1" exRow rfl (by decide)).1 rfl rfl).1,
    ((C5_delete_order exState noFaults "d1" exRow rfl (by decide)).1 rfl rfl).2.1⟩

/-! ### C8 -/

/-- C8: when no row exists for the id, `updateDocument` and `deleteDocument`
throw `Document not found`, the backend state is returned unchanged, and the
trace holds only the initial row select — no storage or database write was
issued.  Both copies of the module. -/
theorem C8_not_found_is_pure (s : Backend) (f : Faults) (id : String)
    (u : UpdInput) (h : ∀ r ∈ s.rows, r.id ≠ id) :
    Docs.updateDocument s f id u = (.error .docNotFound, s, [.selectRow id]) ∧
    Docs.deleteDocument s f id = (.error .docNotFound, s, [.selectRow id]) ∧
    DocsV2.updateDocument s f id u = (.error .docNotFound, s, [.selectRow id]) ∧
    DocsV2.deleteDocument s f id = (.error .docNotFound, s, [.selectRow id]) := by
  have hss : selectSingle s.rows f.selectFail id = none :=
    selectSingle_none s.rows f.selectFail id h
  refine ⟨?_, ?_, ?_, ?_⟩ <;>
    simp [Docs.updateDocument, Docs.deleteDocument, DocsV2.updateDocument,
      DocsV2.deleteDocument, hss]

/-- C8 witness: the not-found theorem applied at a concrete state and an id
with no row. -/
theorem C8_witness :
    (∀ r ∈ exState.rows, r.id ≠ "zz") ∧
    Docs.updateDocument exState noFaults "zz" exUpd =
      (.error .docNotFound, exState, [.selectRow "zz"]) ∧
    Docs.deleteDocument exState noFaults "zz" =
      (.error .docNotFound, exState, [.selectRow "zz"]) :=
  ⟨by decide,
    (C8_not_found_is_pure exState noFaults "zz" exUpd (by decide)).1,
    (C8_not_found_is_pure exState noFaults "zz" exUpd (by decide)).2.1⟩

/-! ### C10 -/

/-- C10: on every path through `updateDocument` — success or failure — each
row keeps its id, file name, owner, storage path and creation timestamp, a
row whose id is not the targeted one is untouched entirely, and every blob
stored under a path other than the targeted row's storage path is unchanged.
Only the alias, the public flag, the targeted blob and `updated_at` can
differ.  Both copies of the module. -/
theorem C10_update_frame (s : Backend) (f : Faults) (id : String) (u : UpdInput) :
    List.Forall₂ (frameRel id) s.rows (Docs.updateDocument s f id u).2.1.rows ∧
    (∀ q, (∀ r ∈ s.rows, r.id = id → r.storage_path ≠ q) →
      lookupBlob (Docs.updateDocument s f id u).2.1.blobs q =
        lookupBlob s.blobs q) ∧
    List.Forall₂ (frameRel id) s.rows (DocsV2.updateDocument s f id u).2.1.rows ∧
    (∀ q, (∀ r ∈ s.rows, r.id = id → r.storage_path ≠ q) →
      lookupBlob (DocsV2.updateDocument s f id u).2.1.blobs q =
        lookupBlob s.blobs q) := by
  have hgD : ∀ s' u', ∀ r : Row, (Docs.applyUpd s' u' r).id = r.id ∧
      (Docs.applyUpd s' u' r).file_name = r.file_name ∧
      (Docs.applyUpd s' u' r).user_id = r.user_id ∧
      (Docs.applyUpd s' u' r).storage_path = r.storage_path ∧
      (Docs.applyUpd s' u' r).created_at = r.created_at := by
    intro s' u' r
    exact ⟨rfl, rfl, rfl, rfl, rfl⟩
  have hgV : ∀ s' u', ∀ r : Row, (DocsV2.applyUpd s' u' r).id = r.id ∧
      (DocsV2.applyUpd s' u' r).file_name = r.file_name ∧
      (DocsV2.applyUpd s' u' r).user_id = r.user_id ∧
      (DocsV2.applyUpd s' u' r).storage_path = r.storage_path ∧
      (DocsV2.applyUpd s' u' r).created_at = r.created_at := by
    intro s' u' r
    exact ⟨rfl, rfl, rfl, rfl, rfl⟩
  cases hss : selectSingle s.rows f.selectFail id with
  | none =>
    refine ⟨?_, ?_, ?_, ?_⟩ <;>
      simp [Docs.updateDocument, DocsV2.updateDocument, hss] <;>
      exact fun x _ => frameRel_refl id x
  | some cur =>
    have hcur := selectSingle_mem s.rows f.selectFail id cur hss
    have hblob : ∀ blobs q c, (∀ r ∈ s.rows, r.id = id → r.storage_path ≠ q) →
        lookupBlob (setBlob blobs cur.storage_path c) q = lookupBlob blobs q := by
      intro blobs q c hq
      exact lookupBlob_setBlob_ne blobs cur.storage_path c q (hq cur hcur.1 hcur.2).symm
    refine ⟨?_, ?_, ?_, ?_⟩
    · simp only [Docs.updateDocument, hss]
      repeat' split
      all_goals
        first
          | exact forall₂_frameRel_refl id s.rows
          | exact forall₂_frameRel_updRows id s.rows _ (hgD _ u)
    · intro q hq
      simp only [Docs.updateDocument, hss]
      repeat' split
      all_goals
        first
          | rfl
          | exact hblob s.blobs q _ hq
    · simp only [DocsV2.updateDocument, hss]
      repeat' split
      all_goals
        first
          | exact forall₂_frameRel_refl id s.rows
          | exact forall₂_frameRel_updRows id s.rows _ (hgV _ u)
    · intro q hq
      simp only [DocsV2.updateDocument, hss]
      repeat' split
      all_goals
        first
          | rfl
          | exact hblob s.blobs q _ hq

/-- C10 witness: the frame theorem applied at a concrete state: a blob under
a path unrelated to the updated document is untouched. -/
theorem C10_witness :
    (∀ r ∈ exState.rows, r.id = "d1" → r.storage_path ≠ "other") ∧
    lookupBlob (Docs.updateDocument exState noFaults "d1" exUpd).2.1.blobs
      "other" = lookupBlob exState.blobs "other" :=
  ⟨by decide,
    (C10_update_frame exState noFaults "d1" exUpd).2.1 "other" (by decide)⟩

/-! ### C6 -/

/-- The fault schedule in which downloading the sample row's blob fails. -/
def exDlFaults : Faults := { downloadFails := ["u1/f1.md"] }

/-- The fault schedule in which the select-all call fails. -/
def exSelFaults : Faults := { selectAllFail := true }

/-- C6 counterexample: in the `auth.ts` copy, `getDocument` issues a content
download that fails, yet the operation returns `null` (ok) instead of
throwing the error to its caller; likewise `getDocuments` returns an empty ok
list, silently skipping the document whose download failed. -/
theorem C6_counterexample :
    exDlFaults.downloadFails.contains "u1/f1.md" = true ∧
    download exState exDlFaults "u1/f1.md" = none ∧
    (DocsV2.getDocument exState exDlFaults "d1").2.2 =
      [.selectRow "d1", .downloadBlob "u1/f1.md"] ∧
    (DocsV2.getDocument exState exDlFaults "d1").1 = .ok none ∧
    exState.rows = [exRow] ∧
    (DocsV2.getDocuments exState exDlFaults).1 = .ok [] := by
  refine ⟨by decide, by decide, by decide, rfl, rfl, rfl⟩

theorem loadDoc_eq_some (s : Backend) (f : Faults) (r : Row) (doc : Doc)
    (h : DocsV2.loadDoc s f r = some doc) :
    ∃ c, download s f r.storage_path = some c ∧ doc = DocsV2.toDoc r c := by
  unfold DocsV2.loadDoc at h
  cases hd : download s f r.storage_path with
  | none => rw [hd] at h; cases h
  | some c =>
    rw [hd] at h
    obtain rfl : doc = DocsV2.toDoc r c := (Option.some.inj h).symm
    exact ⟨c, rfl, rfl⟩

/-- C6 amended: every failed backend call inside the `documents.ts`
operations makes the operation throw an error to its caller — the failing
call's own error everywhere except the initial row lookups of
`updateDocument` and `deleteDocument`, whose failure is reported as the
substitute `Document not found` error — with no retry and no recovery beyond
the compensating delete of `createDocument`.  In the `auth.ts` copy the same
holds for `createDocument`, `updateDocument` and `deleteDocument` (and for
the select of `getDocuments`), but `getDocuments` succeeds while silently
skipping every document whose content download fails, and `getDocument`
returns null instead of throwing, both on a failed row fetch and on a failed
content download.  One conjunct per backend call site, each given that the
calls before it succeeded. -/
theorem C6_errors_propagate (s : Backend) (f : Faults) (id : String)
    (d : DocInput) (u : UpdInput) (r : Row) (c : String) :
    (f.selectAllFail = true →
      (Docs.getDocuments s f).1 = .error (.backend .selectAll)) ∧
    (f.selectAllFail = false → r ∈ s.rows → download s f r.storage_path = none →
      ∃ r' ∈ s.rows, download s f r'.storage_path = none ∧
        (Docs.getDocuments s f).1 =
          .error (.backend (.downloadBlob r'.storage_path))) ∧
    (f.selectFail = true →
      (Docs.getDocument s f id).1 = .error (.backend (.selectRow id))) ∧
    (selectSingle s.rows f.selectFail id = some r →
      download s f r.storage_path = none →
      (Docs.getDocument s f id).1 =
        .error (.backend (.downloadBlob r.storage_path))) ∧
    (f.rpcFail = true →
      (Docs.createDocument s f d).1 = .error (.backend (.allocId (genId s)))) ∧
    (f.rpcFail = false → f.insertFail = true →
      (Docs.createDocument s f d).1 = .error (.backend (.insertRow (genId s)))) ∧
    (f.rpcFail = false → f.insertFail = false → f.uploadFail = true →
      (Docs.createDocument s f d).1 =
        .error (.backend (.uploadBlob (d.userId ++ "/" ++ (genId s ++ ".md"))))) ∧
    (f.selectFail = true →
      (Docs.updateDocument s f id u).1 = .error .docNotFound) ∧
    (selectSingle s.rows f.selectFail id = some r → u.content = some c →
      f.blobUpdateFail = true →
      (Docs.updateDocument s f id u).1 =
        .error (.backend (.updateBlob r.storage_path))) ∧
    (selectSingle s.rows f.selectFail id = some r → f.blobUpdateFail = false →
      f.rowUpdateFail = true →
      (Docs.updateDocument s f id u).1 = .error (.backend (.updateRow id))) ∧
    (selectSingle s.rows f.selectFail id = some r → f.blobUpdateFail = false →
      f.rowUpdateFail = false → (u.content = none ∨ u.content = some "") →
      f.downloadFails.contains r.storage_path = true →
      (Docs.updateDocument s f id u).1 =
        .error (.backend (.downloadBlob r.storage_path))) ∧
    (f.selectFail = true →
      (Docs.deleteDocument s f id).1 = .error .docNotFound) ∧
    (selectSingle s.rows f.selectFail id = some r → f.removeFail = true →
      (Docs.deleteDocument s f id).1 =
        .error (.backend (.removeBlob r.storage_path))) ∧
    (selectSingle s.rows f.selectFail id = some r → f.removeFail = false →
      f.rowDeleteFail = true →
      (Docs.deleteDocument s f id).1 = .error (.backend (.deleteRow id))) ∧
    (f.selectAllFail = true →
      (DocsV2.getDocuments s f).1 = .error (.backend .selectAll)) ∧
    (f.selectAllFail = false →
      ∃ ds, (DocsV2.getDocuments s f).1 = .ok ds ∧
        ∀ doc ∈ ds, ∃ r' ∈ s.rows, ∃ c',
          download s f r'.storage_path = some c' ∧ doc = DocsV2.toDoc r' c') ∧
    (f.selectFail = true →
      (DocsV2.getDocument s f id).1 = .ok none) ∧
    (selectSingle s.rows f.selectFail id = some r →
      download s f r.storage_path = none →
      (DocsV2.getDocument s f id).1 = .ok none) ∧
    (f.rpcFail = true →
      (DocsV2.createDocument s f d).1 =
        .error (.backend (.allocId (genId s)))) ∧
    (f.rpcFail = false → f.insertFail = true →
      (DocsV2.createDocument s f d).1 =
        .error (.backend (.insertRow (genId s)))) ∧
    (f.rpcFail = false → f.insertFail = false → f.uploadFail = true →
      (DocsV2.createDocument s f d).1 =
        .error (.backend (.uploadBlob (d.userId ++ "/" ++ d.fileName)))) ∧
    (f.selectFail = true →
      (DocsV2.updateDocument s f id u).1 = .error .docNotFound) ∧
    (selectSingle s.rows f.selectFail id = some r → u.content = some c →
      f.blobUpdateFail = true →
      (DocsV2.updateDocument s f id u).1 =
        .error (.backend (.updateBlob r.storage_path))) ∧
    (selectSingle s.rows f.selectFail id = some r → f.blobUpdateFail = false →
      f.rowUpdateFail = true →
      (DocsV2.updateDocument s f id u).1 =
        .error (.backend (.updateRow id))) ∧
    (selectSingle s.rows f.selectFail id = some r → f.blobUpdateFail = false →
      f.rowUpdateFail = false → (u.content = none ∨ u.content = some "") →
      f.downloadFails.contains r.storage_path = true →
      (DocsV2.updateDocument s f id u).1 =
        .error (.backend (.downloadBlob r.storage_path))) ∧
    (f.selectFail = true →
      (DocsV2.deleteDocument s f id).1 = .error .docNotFound) ∧
    (selectSingle s.rows f.selectFail id = some r → f.removeFail = true →
      (DocsV2.deleteDocument s f id).1 =
        .error (.backend (.removeBlob r.storage_path))) ∧
    (selectSingle s.rows f.selectFail id = some r → f.removeFail = false →
      f.rowDeleteFail = true →
      (DocsV2.deleteDocument s f id).1 =
        .error (.backend (.deleteRow id))) := by
  refine ⟨?_, ?_, ?_, ?_, ?_, ?_, ?_, ?_, ?_, ?_, ?_, ?_, ?_, ?_, ?_, ?_, ?_,
    ?_, ?_, ?_, ?_, ?_, ?_, ?_, ?_, ?_, ?_, ?_⟩
  · intro h1
    simp [Docs.getDocuments, h1]
  · intro h1 hr hd
    obtain ⟨r', hrm, hd', he⟩ := loadDocs_error_download s f
      (rowsByCreatedDesc s.rows) r (rowsByCreatedDesc_mem s.rows r hr) hd
    refine ⟨r', rowsByCreatedDesc_mem_rev s.rows r' hrm, hd', ?_⟩
    simp only [Docs.getDocuments, h1, Bool.false_eq_true, if_false]
    exact he
  · intro h1
    simp [Docs.getDocument, selectSingle, h1]
  · intro hs hd
    simp [Docs.getDocument, hs, hd]
  · intro h1
    simp [Docs.createDocument, h1]
  · intro h1 h2
    simp [Docs.createDocument, h1, h2]
  · intro h1 h2 h3
    simp [Docs.createDocument, h1, h2, h3]
  · intro h1
    simp [Docs.updateDocument, selectSingle, h1]
  · intro hs hc h1
    simp [Docs.updateDocument, hs, hc, h1]
  · intro hs h1 h2
    cases hcu : u.content <;> simp [Docs.updateDocument, hs, hcu, h1, h2]
  · intro hs h1 h2 hcnt hdl
    have hm : r.storage_path ∈ f.downloadFails := by simpa using hdl
    rcases hcnt with hc | hc <;>
      simp [Docs.updateDocument, Docs.applyUpd, download, hs, hc, h1, h2, hm]
  · intro h1
    simp [Docs.deleteDocument, selectSingle, h1]
  · intro hs h1
    simp [Docs.deleteDocument, hs, h1]
  · intro hs h1 h2
    simp [Docs.deleteDocument, hs, h1, h2]
  · intro h1
    simp [DocsV2.getDocuments, h1]
  · intro h1
    refine ⟨(rowsByCreatedDesc s.rows).filterMap (DocsV2.loadDoc s f), ?_, ?_⟩
    · simp [DocsV2.getDocuments, h1]
    · intro doc hdoc
      obtain ⟨r', hrm, hld⟩ := List.mem_filterMap.mp hdoc
      obtain ⟨c', hdl, rfl⟩ := loadDoc_eq_some s f r' doc hld
      exact ⟨r', rowsByCreatedDesc_mem_rev s.rows r' hrm, c', hdl, rfl⟩
  · intro h1
    simp [DocsV2.getDocument, selectSingle, h1]
  · intro hs hd
    simp [DocsV2.getDocument, hs, hd]
  · intro h1
    simp [DocsV2.createDocument, h1]
  · intro h1 h2
    simp [DocsV2.createDocument, h1, h2]
  · intro h1 h2 h3
    simp [DocsV2.createDocument, h1, h2, h3]
  · intro h1
    simp [DocsV2.updateDocument, selectSingle, h1]
  · intro hs hc h1
    simp [DocsV2.updateDocument, hs, hc, h1]
  · intro hs h1 h2
    cases hcu : u.content <;> simp [DocsV2.updateDocument, hs, hcu, h1, h2]
  · intro hs h1 h2 hcnt hdl
    have hm : r.storage_path ∈ f.downloadFails := by simpa using hdl
    rcases hcnt with hc | hc <;>
      simp [DocsV2.updateDocument, DocsV2.applyUpd, download, hs, hc, h1, h2, hm]
  · intro h1
    simp [DocsV2.deleteDocument, selectSingle, h1]
  · intro hs h1
    simp [DocsV2.deleteDocument, hs, h1]
  · intro hs h1 h2
    simp [DocsV2.deleteDocument, hs, h1, h2]

/-- C6 witness: the amended propagation theorem applied at a concrete state
where the select-all call fails: `getDocuments` throws that error. -/
theorem C6_witness :
    exSelFaults.selectAllFail = true ∧
    (Docs.getDocuments exState exSelFaults).1 = .error (.backend .selectAll) :=
  ⟨rfl,
    (C6_errors_propagate exState exSelFaults "d1" exInput exUpd exRow "x").1 rfl⟩

/-! ### C7 -/

/-- C7 counterexample: the `auth.ts` copy of `getDocument` returns the raw
alias as the title; for a stored row with a null alias the returned title is
null, not the stored file name. -/
theorem C7_counterexample :
    exRow.«alias» = none ∧ exRow.file_name = "f1.md" ∧
    (DocsV2.getDocument exState noFaults "d1").1 =
      .ok (some (DocsV2.toDoc exRow "hello")) ∧
    (DocsV2.toDoc exRow "hello").title = none :=
  ⟨rfl, rfl, rfl, rfl⟩

theorem titleOf_default (al : Option String) (fn : String)
    (h : al = none ∨ al = some "") : Docs.titleOf al fn = fn := by
  rcases h with rfl | rfl <;> simp [Docs.titleOf]

theorem titleOf_alias (al : Option String) (fn a : String) (h : al = some a)
    (ha : a ≠ "") : Docs.titleOf al fn = a := by
  subst h
  simp [Docs.titleOf, ha]

/-- C7 amended: in the `documents.ts` read operations, every returned
document's title is the stored alias when that alias is present and non-empty
(JavaScript `||` also falls through on the empty string) and the stored file
name otherwise; the `auth.ts` copies return the raw alias with no fallback. -/
theorem C7_title_alias_fallback (s : Backend) (f : Faults) (id : String) :
    (∀ r doc, selectSingle s.rows f.selectFail id = some r →
      (Docs.getDocument s f id).1 = .ok (some doc) →
      ((r.«alias» = none ∨ r.«alias» = some "") → doc.title = some r.file_name) ∧
      (∀ a, r.«alias» = some a → a ≠ "" → doc.title = some a)) ∧
    (∀ ds doc, (Docs.getDocuments s f).1 = .ok ds → doc ∈ ds →
      ∃ r ∈ s.rows, doc.fileName = r.file_name ∧
        ((r.«alias» = none ∨ r.«alias» = some "") →
          doc.title = some r.file_name) ∧
        (∀ a, r.«alias» = some a → a ≠ "" → doc.title = some a)) := by
  constructor
  · intro r doc hs hok
    cases hd : download s f r.storage_path with
    | none => simp [Docs.getDocument, hs, hd] at hok
    | some c =>
      have hdoc : doc = Docs.toDoc r c := by
        simp [Docs.getDocument, hs, hd] at hok
        exact hok.symm
      subst hdoc
      constructor
      · intro h
        simp [Docs.toDoc, titleOf_default r.«alias» r.file_name h]
      · intro a ha hne
        simp [Docs.toDoc, titleOf_alias r.«alias» r.file_name a ha hne]
  · intro ds doc hok hdoc
    by_cases h1 : f.selectAllFail
    · simp [Docs.getDocuments, h1] at hok
    · have hld : Docs.loadDocs s f (rowsByCreatedDesc s.rows) = .ok ds := by
        simpa [Docs.getDocuments, h1] using hok
      obtain ⟨r, hrm, c, hc⟩ := loadDocs_ok_mem s f _ ds hld doc hdoc
      refine ⟨r, ?_, ?_, ?_, ?_⟩
      · rw [rowsByCreatedDesc] at hrm
        exact (List.Perm.mem_iff (List.perm_insertionSort
          (fun a b => b.created_at ≤ a.created_at) s.rows)).mp hrm
      · rw [hc]
        rfl
      · intro h
        rw [hc]
        simp [Docs.toDoc, titleOf_default r.«alias» r.file_name h]
      · intro a ha hne
        rw [hc]
        simp [Docs.toDoc, titleOf_alias r.«alias» r.file_name a ha hne]

/-- C7 witness: the fallback theorem applied at a concrete state whose row
has a null alias: the returned title is the stored file name. -/
theorem C7_witness :
    (selectSingle exState.rows noFaults.selectFail "d1" = some exRow ∧
      (Docs.getDocument exState noFaults "d1").1 =
        .ok (some (Docs.toDoc exRow "hello")) ∧
      (exRow.«alias» = none ∨ exRow.«alias» = some "")) ∧
    (Docs.toDoc exRow "hello").title = some exRow.file_name :=
  ⟨⟨rfl, rfl, Or.inl rfl⟩,
    ((C7_title_alias_fallback exState noFaults "d1").1 exRow
      (Docs.toDoc exRow "hello") rfl rfl).1 (Or.inl rfl)⟩

/-! ### C9 -/

theorem loadDoc_createdAt (s : Backend) (f : Faults) (r : Row) (x : Doc)
    (h : DocsV2.loadDoc s f r = some x) : x.createdAt = r.created_at := by
  unfold DocsV2.loadDoc at h
  cases hd : download s f r.storage_path with
  | none => rw [hd] at h; cases h
  | some c =>
    rw [hd] at h
    cases h
    rfl

/-- C9: whenever `getDocuments` returns a list, that list is sorted by
creation timestamp in descending order (newest first), in both copies of the
module (the `auth.ts` copy merely drops some elements of the sorted list). -/
theorem C9_documents_sorted_desc (s : Backend) (f : Faults) :
    (∀ ds, (Docs.getDocuments s f).1 = .ok ds →
      ds.Pairwise (fun a b => b.createdAt ≤ a.createdAt)) ∧
    (∀ ds, (DocsV2.getDocuments s f).1 = .ok ds →
      ds.Pairwise (fun a b => b.createdAt ≤ a.createdAt)) := by
  have hsort := rowsByCreatedDesc_sorted s.rows
  constructor
  · intro ds hok
    by_cases h1 : f.selectAllFail
    · simp [Docs.getDocuments, h1] at hok
    · have hld : Docs.loadDocs s f (rowsByCreatedDesc s.rows) = .ok ds := by
        simpa [Docs.getDocuments, h1] using hok
      have hmap := loadDocs_ok_created s f _ ds hld
      have p1 : ((rowsByCreatedDesc s.rows).map (fun r => r.created_at)).Pairwise
          (fun x y => y ≤ x) := List.pairwise_map.mpr hsort
      rw [← hmap] at p1
      exact List.pairwise_map.mp p1
  · intro ds hok
    by_cases h1 : f.selectAllFail
    · simp [DocsV2.getDocuments, h1] at hok
    · have hds : (rowsByCreatedDesc s.rows).filterMap (DocsV2.loadDoc s f) = ds := by
        simpa [DocsV2.getDocuments, h1] using hok
      rw [← hds]
      refine List.Pairwise.filterMap (DocsV2.loadDoc s f) ?_ hsort
      intro a b hab x hx y hy
      rw [loadDoc_createdAt s f a x (Option.mem_def.mp hx),
        loadDoc_createdAt s f b y (Option.mem_def.mp hy)]
      exact hab

/-- C9 witness: the sortedness theorem applied at a concrete state. -/
theorem C9_witness :
    (Docs.getDocuments exState noFaults).1 =
      .ok [Docs.toDoc exRow "hello"] ∧
    ([Docs.toDoc exRow "hello"] : List Doc).Pairwise
      (fun a b => b.createdAt ≤ a.createdAt) :=
  ⟨rfl, (C9_documents_sorted_desc exState noFaults).1 [Docs.toDoc exRow "hello"] rfl⟩
